import Mathlib

set_option maxRecDepth 100000

deriving instance DecidableEq for Except

/-!
Verification development for the filter-compilation and distribution-estimation
engine of `backend/server.py` (functions `_build_filters`, `_tag_query` and the
`search_estimate` tool).

The embedding is shallow: the PostgreSQL table `hemnet_items` becomes a list of
`Row`s, a Python filter dict becomes an association list of `FilterValue`s, and
`_build_filters` is split into a semantic clause list (`buildClauses`) together
with the literal SQL text and bound-parameter list it renders to
(`build_filters`).  SQL evaluation is modelled per row: a `WHERE` conjunction
keeps a row exactly when every clause evaluates to `TRUE`, so each clause is
evaluated to a `Bool` with SQL `NULL` outcomes collapsed to `false` (no clause
is ever negated, which makes this collapse exact).  Queries whose interpolated
text does not parse, or whose bound parameters do not type-check against the
compared column (psycopg2 sends them as literals which PostgreSQL coerces at
plan time), make the whole call fail; this is modelled by `Except SqlError`.
-/

/-- A value appearing in a filter dict.  Scalars model JSON-style atoms; `list`
models a flat Python list (the only kind the compiled queries can execute:
nested containers would be rejected by the database adapter and are outside the
model). -/
inductive Scalar where
  | null
  | num (q : ℚ)
  | str (s : String)
deriving DecidableEq, Repr

/-- A Python value stored under a key of a filter dict (`hard_filters` /
`soft_prefs`). -/
inductive FilterValue where
  | null
  | num (q : ℚ)
  | str (s : String)
  | list (xs : List Scalar)
deriving DecidableEq, Repr

/-- The "shape" of a filter value: everything `_build_filters` branches on
(nullness, list-ness and list arity) but none of the literal content. -/
inductive Shape where
  | null
  | num
  | str
  | list (n : Nat)
deriving DecidableEq, Repr

def shape : FilterValue → Shape
  | .null => .null
  | .num _ => .num
  | .str _ => .str
  | .list xs => .list xs.length

/-- A filter dict: insertion-ordered keys to values.  `_build_filters` only
ever looks keys up (never iterates the dict), so an association list with
`List.lookup` is an exact model of the Python dict; Python guarantees the keys
are distinct. -/
abbrev FilterSpec := List (String × FilterValue)

def pyLookup (spec : FilterSpec) (k : String) : Option FilterValue :=
  List.lookup k spec

/-- One element of a jsonb array of objects (`labels`, `relevant_amenities`).
`text` and `title` model `elem->>'text'` / `elem->>'title'` (null when the key
is missing or not a string); `repr` models `elem::text`, the element's textual
rendering, which is never null. -/
structure TagElem where
  text : Option String
  title : Option String
  repr : String
deriving DecidableEq, Repr

/-- One row of the `hemnet_items` table, restricted to the columns the engine
touches.  Numeric columns are `Option ℚ` (`none` = SQL NULL); `year` is stored
as text in the table; `districts` is a jsonb array of strings (whose elements
may themselves be JSON nulls), `labels` and `relevant_amenities` are jsonb
arrays of objects. -/
structure Row where
  hemnet_id : Int
  price : Option ℚ
  asked_price : Option ℚ
  rooms : Option ℚ
  square_meters : Option ℚ
  monthly_fee : Option ℚ
  latitude : Option ℚ
  longitude : Option ℚ
  year : Option String
  housing_form : Option String
  tenure : Option String
  municipality_name : Option String
  region_name : Option String
  county_name : Option String
  type : Option String
  districts : Option (List (Option String))
  labels : Option (List TagElem)
  relevant_amenities : Option (List TagElem)
deriving DecidableEq, Repr

/-- Numeric SQL expressions used by `_build_filters` and `numeric_map`. -/
inductive NumExpr where
  | priceCoalesce
  | asked_price
  | rooms
  | square_meters
  | monthly_fee
  | year_int
deriving DecidableEq, Repr

def renderNumExpr : NumExpr → String
  | .priceCoalesce => "COALESCE(price, asked_price)"
  | .asked_price => "asked_price"
  | .rooms => "rooms"
  | .square_meters => "square_meters"
  | .monthly_fee => "monthly_fee"
  | .year_int => "CASE WHEN year ~ \x27^[0-9]\x7b4\x7d$\x27 THEN year::int END"

def charDigits (cs : List Char) : Nat :=
  cs.foldl (fun a c => a * 10 + (c.toNat - 48)) 0

/-- `year ~ '^[0-9]{4}$'`: exactly four ASCII digits. -/
def isFourDigits (s : String) : Bool :=
  s.length == 4 && s.toList.all Char.isDigit

/-- Evaluate a numeric expression on a row (`none` = SQL NULL).  `year_int`
models `CASE WHEN year ~ '^[0-9]{4}$' THEN year::int END`. -/
def evalNumExpr : NumExpr → Row → Option ℚ
  | .priceCoalesce, r => match r.price with
    | some p => some p
    | none => r.asked_price
  | .asked_price, r => r.asked_price
  | .rooms, r => r.rooms
  | .square_meters, r => r.square_meters
  | .monthly_fee, r => r.monthly_fee
  | .year_int, r => r.year.bind fun s =>
      if isFourDigits s then some ((charDigits s.toList : Nat) : ℚ) else none

/-- The scalar text columns targeted by the `list_filters` table of
`_build_filters`. -/
inductive StrCol where
  | housing_form
  | tenure
  | municipality_name
  | region_name
  | county_name
  | type
deriving DecidableEq, Repr

def renderStrCol : StrCol → String
  | .housing_form => "housing_form"
  | .tenure => "tenure"
  | .municipality_name => "municipality_name"
  | .region_name => "region_name"
  | .county_name => "county_name"
  | .type => "type"

def evalStrCol : StrCol → Row → Option String
  | .housing_form, r => r.housing_form
  | .tenure, r => r.tenure
  | .municipality_name, r => r.municipality_name
  | .region_name, r => r.region_name
  | .county_name, r => r.county_name
  | .type, r => r.type

/-- A compiled clause of the `WHERE` conjunction, one constructor per
`clauses.append` site of `_build_filters`. -/
inductive Clause where
  | ge (e : NumExpr) (v : FilterValue)
  | le (e : NumExpr) (v : FilterValue)
  | anyEq (col : StrCol) (vs : List Scalar)
  | districtsAny (vs : List Scalar)
  | coordsNotNull
  | lngBetween (lo hi : Scalar)
  | latBetween (lo hi : Scalar)
deriving DecidableEq, Repr

def renderClause : Clause → String
  | .ge e _ => renderNumExpr e ++ (" >= %s")
  | .le e _ => renderNumExpr e ++ (" <= %s")
  | .anyEq col _ => renderStrCol col ++ (" = ANY(%s)")
  | .districtsAny _ =>
      "EXISTS (SELECT 1 FROM jsonb_array_elements_text(COALESCE(districts, \x27[]\x27::jsonb)) AS d WHERE d = ANY(%s))"
  | .coordsNotNull => "latitude IS NOT NULL AND longitude IS NOT NULL"
  | .lngBetween _ _ => "longitude BETWEEN %s AND %s"
  | .latBetween _ _ => "latitude BETWEEN %s AND %s"

def scalarToFV : Scalar → FilterValue
  | .null => .null
  | .num q => .num q
  | .str s => .str s

/-- The bound parameters contributed by a clause, in the order
`_build_filters` appends them (the bbox site appends
`[bbox[0], bbox[2], bbox[1], bbox[3]]` across its two BETWEEN clauses). -/
def clauseParams : Clause → List FilterValue
  | .ge _ v => [v]
  | .le _ v => [v]
  | .anyEq _ vs => [.list vs]
  | .districtsAny vs => [.list vs]
  | .coordsNotNull => []
  | .lngBetween lo hi => [scalarToFV lo, scalarToFV hi]
  | .latBetween lo hi => [scalarToFV lo, scalarToFV hi]

/-- Split a character list at every occurrence of a separator character
(`str.split(sep)` semantics: `n` separators yield `n + 1` pieces). -/
def splitAtChar (c : Char) : List Char → List (List Char)
  | [] => [[]]
  | a :: rest =>
      let r := splitAtChar c rest
      if a = c then [] :: r
      else
        match r with
        | h :: t => (a :: h) :: t
        | [] => [[a]]

/-- Parse a decimal literal the way PostgreSQL coerces a text parameter that
reaches a numeric comparison: optional sign, digits, optional fractional part.
(Exponent and whitespace forms also exist in PostgreSQL but never occur in the
claims; a string outside this grammar makes the query fail.) -/
def parseDec (s : String) : Option ℚ :=
  let cs : List Char := s.toList
  let signed : ℚ × List Char :=
    match cs with
    | c :: rest => if c = ('-') then (-1, rest) else (1, cs)
    | [] => (1, [])
  match splitAtChar ('.') signed.2 with
  | [ip] =>
      if !ip.isEmpty && ip.all Char.isDigit then
        some (signed.1 * (charDigits ip : Nat))
      else none
  | [ip, fp] =>
      if !ip.isEmpty && ip.all Char.isDigit
          && !fp.isEmpty && fp.all Char.isDigit then
        some (signed.1 * ((charDigits ip : Nat)
          + (charDigits fp : Nat) / ((10 : ℚ) ^ fp.length)))
      else none
  | _ => none

/-- Does a parameter type-check where a numeric comparand is expected?  A NULL
literal is fine (the comparison just yields NULL), a number is fine, a string
is coerced at plan time and fails unless it parses as a numeric literal, and a
list becomes an array, which never compares to a numeric column. -/
def numParamOkFV : FilterValue → Bool
  | .null => true
  | .num _ => true
  | .str s => (parseDec s).isSome
  | .list _ => false

def numParamOkS : Scalar → Bool
  | .null => true
  | .num _ => true
  | .str s => (parseDec s).isSome

/-- The numeric value a parameter contributes to a comparison (`none` = NULL);
only meaningful for parameters that pass `numParamOkFV`/`numParamOkS`. -/
def numParamValFV : FilterValue → Option ℚ
  | .null => none
  | .num q => some q
  | .str s => parseDec s
  | .list _ => none

def numParamValS : Scalar → Option ℚ
  | .null => none
  | .num q => some q
  | .str s => parseDec s

def strListOk (vs : List Scalar) : Bool :=
  vs.all fun v => match v with | .str _ => true | _ => false

/-- Plan-time well-typedness of a clause's parameters.  PostgreSQL resolves
parameter types when it plans the statement, so an ill-typed parameter fails
the whole query even if no row would reach the clause. -/
def clauseWellTyped : Clause → Bool
  | .ge _ v => numParamOkFV v
  | .le _ v => numParamOkFV v
  | .anyEq _ vs => strListOk vs
  | .districtsAny vs => strListOk vs
  | .coordsNotNull => true
  | .lngBetween lo hi => numParamOkS lo && numParamOkS hi
  | .latBetween lo hi => numParamOkS lo && numParamOkS hi

def scalarMatches (s : String) (vs : List Scalar) : Bool :=
  vs.any fun v => match v with | .str t => t == s | _ => false

/-- Truth of a clause at a row, with SQL NULL collapsed to `false` (a `WHERE`
conjunction keeps a row only when every conjunct is TRUE). -/
def clauseHolds (c : Clause) (r : Row) : Bool :=
  match c with
  | .ge e v => match evalNumExpr e r, numParamValFV v with
    | some x, some b => decide (b ≤ x)
    | _, _ => false
  | .le e v => match evalNumExpr e r, numParamValFV v with
    | some x, some b => decide (x ≤ b)
    | _, _ => false
  | .anyEq col vs => match evalStrCol col r with
    | some s => scalarMatches s vs
    | none => false
  | .districtsAny vs => (r.districts.getD []).any fun el =>
      match el with
      | some s => scalarMatches s vs
      | none => false
  | .coordsNotNull => r.latitude.isSome && r.longitude.isSome
  | .lngBetween lo hi => match r.longitude, numParamValS lo, numParamValS hi with
    | some x, some a, some b => decide (a ≤ x) && decide (x ≤ b)
    | _, _, _ => false
  | .latBetween lo hi => match r.latitude, numParamValS lo, numParamValS hi with
    | some x, some a, some b => decide (a ≤ x) && decide (x ≤ b)
    | _, _, _ => false

/-- `if key in filters and filters[key] is not None: emit expr >= %s`. -/
def geEmit (o : Option FilterValue) (e : NumExpr) : List Clause :=
  match o with
  | some v => if v = FilterValue.null then [] else [Clause.ge e v]
  | none => []

/-- `if key in filters and filters[key] is not None: emit expr <= %s`. -/
def leEmit (o : Option FilterValue) (e : NumExpr) : List Clause :=
  match o with
  | some v => if v = FilterValue.null then [] else [Clause.le e v]
  | none => []

/-- `isinstance(value, list) and value`: emit a set-membership clause for a
non-empty list value. -/
def listEmit (o : Option FilterValue) (col : StrCol) : List Clause :=
  match o with
  | some (.list xs) => if xs.isEmpty then [] else [Clause.anyEq col xs]
  | _ => []

/-- The `districts` site: a non-empty list value emits the EXISTS clause
testing intersection with the per-row jsonb array. -/
def districtsEmit (o : Option FilterValue) : List Clause :=
  match o with
  | some (.list xs) => if xs.isEmpty then [] else [Clause.districtsAny xs]
  | _ => []

/-- The `bbox` site: a list of exactly four components emits the non-null
coordinate guard plus the two BETWEEN clauses. -/
def bboxEmit (o : Option FilterValue) : List Clause :=
  match o with
  | some (.list [a, b, c, d]) =>
      [Clause.coordsNotNull, Clause.lngBetween a c, Clause.latBetween b d]
  | _ => []

/-- The `_add_range` helper: emit `expr >= %s` for `key_min` and `expr <= %s`
for `key_max`, each only when the key is present with a non-None value. -/
def rangeClauses (filters : FilterSpec) (keyMin keyMax : String) (e : NumExpr) :
    List Clause :=
  geEmit (pyLookup filters keyMin) e ++ leEmit (pyLookup filters keyMax) e

/-- The monthly-fee site of `_build_filters`: unlike `_add_range` it emits the
`<=` clause first (`max_monthly_fee` is checked before `min_monthly_fee`). -/
def monthlyFeeClauses (filters : FilterSpec) : List Clause :=
  leEmit (pyLookup filters ("max_monthly_fee")) NumExpr.monthly_fee ++
  geEmit (pyLookup filters ("min_monthly_fee")) NumExpr.monthly_fee

/-- One entry of the `list_filters` loop. -/
def listFilterClause (filters : FilterSpec) (key : String) (col : StrCol) :
    List Clause :=
  listEmit (pyLookup filters key) col

/-- The `districts` site of `_build_filters`. -/
def districtsClause (filters : FilterSpec) : List Clause :=
  districtsEmit (pyLookup filters ("districts"))

/-- The `bbox` site of `_build_filters`. -/
def bboxClauses (filters : FilterSpec) : List Clause :=
  bboxEmit (pyLookup filters ("bbox"))

/-- The ordered clause list `_build_filters` assembles. -/
def buildClauses (filters : FilterSpec) : List Clause :=
  rangeClauses filters ("min_price") ("max_price") NumExpr.priceCoalesce ++
  rangeClauses filters ("min_rooms") ("max_rooms") NumExpr.rooms ++
  rangeClauses filters ("min_area") ("max_area") NumExpr.square_meters ++
  rangeClauses filters ("min_year") ("max_year") NumExpr.year_int ++
  monthlyFeeClauses filters ++
  listFilterClause filters ("housing_forms") StrCol.housing_form ++
  listFilterClause filters ("housing_form") StrCol.housing_form ++
  listFilterClause filters ("tenure") StrCol.tenure ++
  listFilterClause filters ("municipalities") StrCol.municipality_name ++
  listFilterClause filters ("regions") StrCol.region_name ++
  listFilterClause filters ("counties") StrCol.county_name ++
  listFilterClause filters ("types") StrCol.type ++
  districtsClause filters ++
  bboxClauses filters

/-- `" AND ".join(clauses)`: interpose a separator between list elements. -/
def joinSep (sep : String) : List String → String
  | [] => ""
  | [a] => a
  | a :: rest => a ++ sep ++ joinSep sep rest

/-- `_build_filters`: the `WHERE ...` text and the bound parameters.  An empty
dict, or a dict producing no clauses, yields `("", [])`. -/
def build_filters (filters : FilterSpec) : String × List FilterValue :=
  if filters = ([] : List (String × FilterValue)) then ("", [])
  else
    let clauses := buildClauses filters
    if clauses.isEmpty then ("", [])
    else
      (("WHERE ") ++ joinSep (" AND ") (clauses.map renderClause),
        clauses.flatMap clauseParams)

example : build_filters [] = ("", []) := rfl

example :
    build_filters [(("min_price"), FilterValue.num 5)] =
      (("WHERE COALESCE(price, asked_price) >= %s"), [FilterValue.num 5]) := rfl

/-- The nine tag fields `_tag_query` recognizes. -/
inductive TagKind where
  | districts
  | labels
  | relevant_amenities
  | housing_form
  | tenure
  | municipality_name
  | region_name
  | county_name
  | type
deriving DecidableEq, Repr

/-- `_tag_query`: resolve a requested tag-field name; `none` models the
`("", "")` return that makes `search_estimate` skip the field. -/
def tag_query : String → Option TagKind
  | "districts" => some .districts
  | "labels" => some .labels
  | "relevant_amenities" => some .relevant_amenities
  | "housing_form" => some .housing_form
  | "tenure" => some .tenure
  | "municipality_name" => some .municipality_name
  | "region_name" => some .region_name
  | "county_name" => some .county_name
  | "type" => some .type
  | _ => none

/-- Is the field single-valued (at most one tag per row)?  The jsonb-array
fields `districts`, `labels` and `relevant_amenities` can emit several tags
for one row. -/
def TagKind.isScalar : TagKind → Bool
  | .districts | .labels | .relevant_amenities => false
  | _ => true

/-- The tags one row contributes to a tag field's derived `tags` relation
(`none` = SQL NULL).  `districts` unnests
`jsonb_array_elements_text(COALESCE(districts, '[]'))`; `labels` takes
`COALESCE(elem->>'text', elem->>'title', elem::text)` per element;
`relevant_amenities` prefers `title` over `text`; the scalar fields yield the
column itself. -/
def rowTags : TagKind → Row → List (Option String)
  | .districts, r => r.districts.getD []
  | .labels, r => (r.labels.getD []).map fun e =>
      match e.text with
      | some t => some t
      | none => match e.title with
        | some t => some t
        | none => some e.repr
  | .relevant_amenities, r => (r.relevant_amenities.getD []).map fun e =>
      match e.title with
      | some t => some t
      | none => match e.text with
        | some t => some t
        | none => some e.repr
  | .housing_form, r => [r.housing_form]
  | .tenure, r => [r.tenure]
  | .municipality_name, r => [r.municipality_name]
  | .region_name, r => [r.region_name]
  | .county_name, r => [r.county_name]
  | .type, r => [r.type]

/-- The `(hemnet_id, tag)` pairs a single row contributes after the
`WHERE tag IS NOT NULL AND tag <> ''` filter. -/
def rowValidTags (q : TagKind) (r : Row) : List (Int × String) :=
  (rowTags q r).filterMap fun t? =>
    t?.bind fun t => if t = ("") then none else some (r.hemnet_id, t)

/-- All valid `(hemnet_id, tag)` pairs of the table for a tag field. -/
def validTagRows (q : TagKind) (db : List Row) : List (Int × String) :=
  db.flatMap (rowValidTags q)

/-- `GROUP BY tag` with `COUNT(DISTINCT hemnet_id)` over a list of
`(hemnet_id, tag)` pairs.  Groups appear in first-occurrence order (SQL leaves
the pre-ORDER-BY order unspecified; the properties proved below do not depend
on it). -/
def groupedCounts (rows : List (Int × String)) : List (String × Nat) :=
  ((rows.map Prod.snd).dedup).map fun t =>
    (t, ((rows.filterMap fun p => if p.2 = t then some p.1 else none).dedup).length)

/-- `ORDER BY count DESC LIMIT limit`.  SQL does not specify the order of
ties; insertion sort by descending count is one admissible execution, and the
proved properties are tie-order independent. -/
def orderLimit (l : List (String × Nat)) (limit : Nat) : List (String × Nat) :=
  (l.insertionSort fun a b => b.2 ≤ a.2).take limit

/-- One entry of a tag-prevalence list: the Python dict
`{"tag": ..., "count": ..., "share": ...}` (the spec's `TagObservation` with
`tag_value`/`distinct_item_count` named as in the code). -/
structure TagObservation where
  tag : String
  count : Nat
  share : ℚ
deriving DecidableEq, Repr

/-- `row["share"] = (row["count"] / population) if population else 0`,
attached after the LIMIT was applied. -/
def addShare (pop : Nat) (l : List (String × Nat)) : List TagObservation :=
  l.map fun p => ⟨p.1, p.2, if pop ≠ 0 then (p.2 : ℚ) / (pop : ℚ) else 0⟩

structure TagStats where
  overall : List TagObservation
  filtered : List TagObservation
deriving DecidableEq, Repr

/-- The overall and filtered prevalence lists for one tag field.  The filtered
query joins the full `tags` relation against the ids of the filtered rows on
`hemnet_id` (it does not re-filter the rows themselves), which is what the
`JOIN filtered f ON f.hemnet_id = tags.hemnet_id` in `search_estimate`
does. -/
def tagFieldStats (q : TagKind) (db : List Row) (pred : Row → Bool)
    (limit total filtered : Nat) : TagStats :=
  let overallRows := validTagRows q db
  let filteredIds := (db.filter pred).map Row.hemnet_id
  let filteredRows := overallRows.filter fun p => filteredIds.contains p.1
  { overall := addShare total (orderLimit (groupedCounts overallRows) limit)
    filtered := addShare filtered (orderLimit (groupedCounts filteredRows) limit) }

/-- The `numeric_map` dict of `search_estimate`. -/
def numeric_map : String → Option NumExpr
  | "price" => some .priceCoalesce
  | "asked_price" => some .asked_price
  | "rooms" => some .rooms
  | "square_meters" => some .square_meters
  | "area" => some .square_meters
  | "monthly_fee" => some .monthly_fee
  | "year" => some .year_int
  | _ => none

/-- PostgreSQL `width_bucket(v, minV, maxV, bins)` for `minV < maxV`:
bucket 0 below the range, `bins + 1` at or above `maxV`, otherwise the
equal-width bucket index starting at 1. -/
def width_bucket (v minV maxV : ℚ) (bins : Nat) : Int :=
  if v < minV then 0
  else if maxV ≤ v then (bins : Int) + 1
  else Int.floor ((v - minV) * (bins : ℚ) / (maxV - minV)) + 1

/-- `GROUP BY bucket ORDER BY bucket` over the bucketed values: one
`(bucket, count)` pair per occupied bucket, ascending. -/
def histogramOf (values : List ℚ) (mn mx : ℚ) (bins : Nat) : List (Int × Nat) :=
  let buckets := values.map fun v => width_bucket v mn mx bins
  ((buckets.dedup).insertionSort fun a b => a ≤ b).map fun b => (b, buckets.count b)

def listMin (l : List ℚ) : Option ℚ :=
  l.foldl (fun acc v => match acc with
    | none => some v
    | some m => some (min m v)) none

def listMax (l : List ℚ) : Option ℚ :=
  l.foldl (fun acc v => match acc with
    | none => some v
    | some m => some (max m v)) none

/-- `PERCENTILE_CONT(p) WITHIN GROUP (ORDER BY value)`: NULL over the empty
population, else linear interpolation at rank `p * (n - 1)` of the sorted
values. -/
def percentileCont (p : ℚ) (l : List ℚ) : Option ℚ :=
  match l with
  | [] => none
  | _ =>
    let s := l.insertionSort fun a b => a ≤ b
    let h : ℚ := p * ((s.length : ℚ) - 1)
    let lo := s.getD (Int.toNat (Int.floor h)) 0
    let hi := s.getD (Int.toNat (Int.ceil h)) 0
    some (lo + (h - (Int.floor h : ℚ)) * (hi - lo))

/-- The per-field numeric summary dict (`{**stats, "histogram": histogram}`). -/
structure NumericSummary where
  count : Nat
  min : Option ℚ
  max : Option ℚ
  avg : Option ℚ
  p50 : Option ℚ
  p90 : Option ℚ
  histogram : List (Int × Nat)
deriving DecidableEq, Repr

/-- A value of `numeric_distributions`: either a summary or the
`{"error": "unsupported_field"}` marker. -/
inductive NumericEntry where
  | stats (s : NumericSummary)
  | error (msg : String)
deriving DecidableEq, Repr

inductive SqlError where
  | paramTypeError
  | invalidHistogramSql
  | invalidSoftSql
  | softParamTypeError
deriving DecidableEq, Repr

/-- The FROM/WHERE fragment of the `data` CTE of `hist_sql`
(whitespace normalized to single spaces):
`SELECT {expr} AS value FROM hemnet_items {where_sql} WHERE {expr} IS NOT NULL`. -/
def histDataSelect (whereSql exprStr : String) : String :=
  ("SELECT ") ++ exprStr ++ (" AS value FROM hemnet_items ") ++ whereSql
    ++ (" WHERE ") ++ exprStr ++ (" IS NOT NULL")

/-- Occurrences of a pattern in a character list (counted at every position;
`WHERE` cannot overlap itself, so for it this is the plain occurrence
count). -/
def countSubstr (pat : List Char) : List Char → Nat
  | [] => 0
  | c :: rest => (if pat.isPrefixOf (c :: rest) then 1 else 0) + countSubstr pat rest

/-- Number of occurrences of `WHERE` in a piece of SQL text. -/
def whereOccurrences (s : String) : Nat :=
  countSubstr (("WHERE").toList) s.toList


/-- Compute one `numeric_distributions` entry.  The stats query wraps the
filtered selection in a subquery and is always well-formed; the histogram
query instead interpolates `where_sql` directly in front of its own
`WHERE {expr} IS NOT NULL` (see `histDataSelect`), so when `where_sql` is
non-empty the statement carries two WHERE clauses for one FROM and the SQL
parser rejects it — the execution step checks exactly that. -/
def numericEntryFor (whereSql : String) (db : List Row) (pred : Row → Bool)
    (bins : Nat) (field : String) : Except SqlError (String × NumericEntry) :=
  match numeric_map field with
  | none => .ok (field, .error ("unsupported_field"))
  | some e =>
    let values := (db.filter pred).filterMap (evalNumExpr e)
    let count := values.length
    let mn := listMin values
    let mx := listMax values
    let stats : NumericSummary :=
      ⟨count, mn, mx,
        if count = 0 then none else some (values.sum / (count : ℚ)),
        percentileCont (1 / 2) values, percentileCont (9 / 10) values, []⟩
    match mn, mx with
    | some a, some b =>
      if count ≠ 0 ∧ a < b then
        if whereOccurrences (histDataSelect whereSql (renderNumExpr e)) ≤ 1 then
          .ok (field, .stats ⟨count, mn, mx, stats.avg, stats.p50, stats.p90,
            histogramOf values a b bins⟩)
        else .error .invalidHistogramSql
      else .ok (field, .stats stats)
    | _, _ => .ok (field, .stats stats)

/-- Leftmost non-overlapping replacement of every occurrence of `pat` by
`repl` (`str.replace` semantics), driven by a character-count fuel that is
always sufficient because a step consumes at least one character. -/
def replaceFuel (pat repl : List Char) : Nat → List Char → List Char
  | 0, l => l
  | _ + 1, [] => []
  | fuel + 1, c :: rest =>
      if pat.isPrefixOf (c :: rest) then
        repl ++ replaceFuel pat repl fuel (rest.drop (pat.length - 1))
      else c :: replaceFuel pat repl fuel rest

/-- Python `s.replace(pat, repl)` for a non-empty pattern. -/
def pyReplace (s pat repl : String) : String :=
  String.mk (replaceFuel pat.toList repl.toList s.toList.length s.toList)

/-- Python `where_sql.replace("WHERE ", "")`: `str.replace` replaces every
occurrence, not only the leading keyword. -/
def stripWHERE (s : String) : String :=
  pyReplace s ("WHERE ") ("")

/-- The `soft_match_count` step.  `soft_match_count` stays `None` unless the
soft dict is non-empty.  The combined query glues
`where_sql.replace("WHERE ", "")` fragments with " AND "; the reassembled text
parses as the conjunction of the compiled clauses exactly when stripping
removed nothing but each fragment's leading keyword (when a clause such as the
districts EXISTS subquery itself contains "WHERE ", the replacement also
deletes that inner keyword and the statement no longer parses).  The soft
parameters are type-checked at plan time like the hard ones. -/
def soft_step (hard soft : FilterSpec) (db : List Row) :
    Except SqlError (Option Nat) :=
  if soft = ([] : List (String × FilterValue)) then .ok none
  else
    let hardCs := buildClauses hard
    let softCs := buildClauses soft
    if stripWHERE (build_filters hard).1
          = joinSep (" AND ") (hardCs.map renderClause)
        ∧ stripWHERE (build_filters soft).1
          = joinSep (" AND ") (softCs.map renderClause) then
      if softCs.all clauseWellTyped then
        .ok (some (db.countP fun r => (hardCs ++ softCs).all fun c => clauseHolds c r))
      else .error .softParamTypeError
    else .error .invalidSoftSql

/-- The report `search_estimate` returns (after `_jsonable`, which only
converts fixed-precision decimals — here already `ℚ` — and is the identity on
this abstract value). -/
structure Report where
  total_count : Nat
  filtered_count : Nat
  soft_match_count : Option Nat
  tag_prevalence : List (String × TagStats)
  numeric_distributions : List (String × NumericEntry)
deriving DecidableEq, Repr

def defaultTagFields : List String :=
  [("housing_form"), ("tenure"), ("municipality_name"), ("region_name"), ("districts")]

def defaultNumericFields : List String :=
  [("price"), ("rooms"), ("square_meters"), ("monthly_fee"), ("year")]

/-- The predicate of the compiled hard filter: the row satisfies every clause
of the conjunction. -/
def specPred (filters : FilterSpec) : Row → Bool :=
  fun r => (buildClauses filters).all fun c => clauseHolds c r

/-- The `search_estimate` tool.  Arguments mirror the Python signature
(`hard_filters or {}` etc. applied by the caller; empty `tag_fields` /
`numeric_fields` fall back to the defaults, `bins` and `tag_limit` are
clamped).  Queries run in source order — counts, tag prevalence, numeric
distributions, soft count — and the first failing query aborts the call, as a
psycopg2 exception would.  The tag queries contain no caller-controlled text
beyond the already-type-checked hard-filter parameters, so they are modelled
as pure; the two dicts keyed by field name are modelled as association lists
in loop order (a duplicated requested field would overwrite a dict entry with
the identical recomputed value, so lookups coincide). -/
def search_estimate (hard_filters soft_prefs : FilterSpec)
    (tag_fields numeric_fields : List String) (bins tag_limit : Nat)
    (db : List Row) : Except SqlError Report :=
  let tagFields := if tag_fields.isEmpty then defaultTagFields else tag_fields
  let numericFields :=
    if numeric_fields.isEmpty then defaultNumericFields else numeric_fields
  let bins := max 3 (min bins 20)
  let tagLimit := max 5 (min tag_limit 50)
  let whereSql := (build_filters hard_filters).1
  let cs := buildClauses hard_filters
  if cs.all clauseWellTyped then
    let pred := specPred hard_filters
    let filtered_count := db.countP pred
    let total_count := db.length
    let tag_prevalence := tagFields.filterMap fun f =>
      (tag_query f).map fun q =>
        (f, tagFieldStats q db pred tagLimit total_count filtered_count)
    match numericFields.mapM (numericEntryFor whereSql db pred bins) with
    | .error e => .error e
    | .ok numeric_distributions =>
      match soft_step hard_filters soft_prefs db with
      | .error e => .error e
      | .ok soft_match_count =>
        .ok ⟨total_count, filtered_count, soft_match_count, tag_prevalence,
          numeric_distributions⟩
  else .error .paramTypeError

/-- A row with NULL in every column except the id. -/
def blankRow (id0 : Int) : Row :=
  ⟨id0, none, none, none, none, none, none, none, none, none, none, none, none,
    none, none, none, none, none⟩

/-- Inverting a successful `search_estimate` run: the counts and the
tag-prevalence map are the advertised pure computations. -/
theorem search_estimate_ok_fields {hard soft : FilterSpec} {tf nf : List String}
    {bins tl : Nat} {db : List Row} {rep : Report}
    (h : search_estimate hard soft tf nf bins tl db = Except.ok rep) :
    rep.total_count = db.length ∧
    rep.filtered_count = db.countP (specPred hard) ∧
    rep.tag_prevalence = (if tf.isEmpty then defaultTagFields else tf).filterMap
      (fun f => (tag_query f).map fun q =>
        (f, tagFieldStats q db (specPred hard) (max 5 (min tl 50)) db.length
          (db.countP (specPred hard)))) := by
  dsimp only [search_estimate] at h
  by_cases hWT : (buildClauses hard).all clauseWellTyped = true
  · rw [if_pos hWT] at h
    split at h
    · exact absurd h (by simp)
    · split at h
      · exact absurd h (by simp)
      · injection h with h'
        subst h'
        exact ⟨rfl, rfl, rfl⟩
  · rw [if_neg hWT] at h
    exact absurd h (by simp)

/-- Inverting a successful run, numeric part: `numeric_distributions` is the
result of the per-field loop. -/
theorem search_estimate_ok_numeric {hard soft : FilterSpec} {tf nf : List String}
    {bins tl : Nat} {db : List Row} {rep : Report}
    (h : search_estimate hard soft tf nf bins tl db = Except.ok rep) :
    (if nf.isEmpty then defaultNumericFields else nf).mapM
        (numericEntryFor (build_filters hard).1 db (specPred hard)
          (max 3 (min bins 20))) = Except.ok rep.numeric_distributions := by
  dsimp only [search_estimate] at h
  by_cases hWT : (buildClauses hard).all clauseWellTyped = true
  · rw [if_pos hWT] at h
    split at h
    · exact absurd h (by simp)
    · split at h
      · exact absurd h (by simp)
      · injection h with h'
        subst h'
        assumption
  · rw [if_neg hWT] at h
    exact absurd h (by simp)

/-- Successful-run helper: when the guard holds and the two fallible steps
succeed, the call returns a report with the advertised counts. -/
theorem search_estimate_run (hard soft : FilterSpec) (tf nf : List String)
    (bins tl : Nat) (db : List Row)
    (hWT : (buildClauses hard).all clauseWellTyped = true)
    (hnd : ∃ nd, (if nf.isEmpty then defaultNumericFields else nf).mapM
        (numericEntryFor (build_filters hard).1 db (specPred hard)
          (max 3 (min bins 20))) = Except.ok nd)
    (hsc : ∃ sc, soft_step hard soft db = Except.ok sc) :
    ∃ rep, search_estimate hard soft tf nf bins tl db = Except.ok rep ∧
      rep.total_count = db.length ∧
      rep.filtered_count = db.countP (specPred hard) := by
  obtain ⟨nd, hnd⟩ := hnd
  obtain ⟨sc, hsc⟩ := hsc
  refine ⟨⟨db.length, db.countP (specPred hard), sc,
    (if tf.isEmpty then defaultTagFields else tf).filterMap
      (fun f => (tag_query f).map fun q =>
        (f, tagFieldStats q db (specPred hard) (max 5 (min tl 50)) db.length
          (db.countP (specPred hard)))), nd⟩, ?_, rfl, rfl⟩
  dsimp only [search_estimate]
  rw [if_pos hWT, hnd, hsc]

/-- With an empty `where_sql` the histogram query text is well-formed, so the
numeric loop cannot fail. -/
theorem numericEntryFor_empty_where (db : List Row) (pred : Row → Bool)
    (bins : Nat) (field : String) :
    ∃ v, numericEntryFor ("") db pred bins field = Except.ok v := by
  have hocc : ∀ e : NumExpr,
      whereOccurrences (histDataSelect ("") (renderNumExpr e)) ≤ 1 := by
    intro e
    cases e <;> decide
  unfold numericEntryFor
  cases hm : numeric_map field with
  | none => exact ⟨_, rfl⟩
  | some e =>
    dsimp only
    split
    · split
      · rw [if_pos (hocc e)]
        exact ⟨_, rfl⟩
      · exact ⟨_, rfl⟩
    · exact ⟨_, rfl⟩

/-- A list `mapM` over `Except` succeeds when every element does. -/
theorem mapM_ok_of_forall {ε α β : Type} (f : α → Except ε β) :
    ∀ l : List α, (∀ a ∈ l, ∃ b, f a = Except.ok b) →
      ∃ out, l.mapM f = Except.ok out := by
  intro l
  induction l with
  | nil => exact fun _ => ⟨[], rfl⟩
  | cons a t ih =>
    intro h
    obtain ⟨b, hb⟩ := h a (List.mem_cons_self a t)
    obtain ⟨out, hout⟩ := ih fun x hx => h x (List.mem_cons_of_mem a hx)
    refine ⟨b :: out, ?_⟩
    rw [List.mapM_cons, hb, hout]
    rfl

/-- An empty report, used only as the (never-reached) default when projecting
a known-successful run. -/
def emptyReport : Report := ⟨0, 0, none, [], []⟩

/-- Concrete two-row dataset used to witness successful runs. -/
def dbW : List Row :=
  [{ blankRow 7 with
      rooms := some 3
      municipality_name := some ("Stockholm")
      year := some ("2005") },
    { blankRow 8 with
      rooms := some 2
      municipality_name := some ("Stockholm") }]

/-- A successful concrete run: default fields, clamped `bins`/`tag_limit`. -/
def repW : Report :=
  (search_estimate [] [] [] [] 25 1 dbW).toOption.getD emptyReport

/-- C1: for every hard-filter FilterSpec, the `filtered_count` returned by the
estimate operation is at most the `total_count` of the same report: the
filtered population is the sublist of rows satisfying the compiled
conjunction. -/
theorem C1_filtered_le_total (hard soft : FilterSpec) (tf nf : List String)
    (bins tl : Nat) (db : List Row) (rep : Report)
    (h : search_estimate hard soft tf nf bins tl db = Except.ok rep) :
    rep.filtered_count ≤ rep.total_count := by
  obtain ⟨ht, hf, -⟩ := search_estimate_ok_fields h
  rw [ht, hf]
  exact List.countP_le_length _

theorem C1_witness : repW.filtered_count ≤ repW.total_count :=
  C1_filtered_le_total [] [] [] [] 25 1 dbW repW (by with_unfolding_all decide)

/-- C2: an empty FilterSpec compiles to no clauses and no bound parameters —
the match-all predicate — and an estimate call with empty hard filters (and no
soft preferences) always succeeds with `filtered_count = total_count`. -/
theorem C2_empty_matches_all :
    build_filters [] = (("" : String), ([] : List FilterValue)) ∧
    buildClauses [] = [] ∧
    (∀ r : Row, specPred [] r = true) ∧
    ∀ (db : List Row) (tf nf : List String) (bins tl : Nat),
      ∃ rep, search_estimate [] [] tf nf bins tl db = Except.ok rep ∧
        rep.filtered_count = rep.total_count := by
  refine ⟨rfl, rfl, fun r => rfl, fun db tf nf bins tl => ?_⟩
  have hnd : ∃ nd, (if nf.isEmpty then defaultNumericFields else nf).mapM
      (numericEntryFor (build_filters ([] : FilterSpec)).1 db (specPred [])
        (max 3 (min bins 20))) = Except.ok nd :=
    mapM_ok_of_forall _ _ fun a _ => numericEntryFor_empty_where db (specPred []) _ a
  obtain ⟨rep, hrep, ht, hf⟩ :=
    search_estimate_run [] [] tf nf bins tl db rfl hnd ⟨none, rfl⟩
  refine ⟨rep, hrep, ?_⟩
  rw [ht, hf]
  exact List.countP_eq_length.2 fun a _ => rfl

def rangeKeys : List String :=
  [("min_price"), ("max_price"), ("min_rooms"), ("max_rooms"), ("min_area"),
    ("max_area"), ("min_year"), ("max_year"), ("min_monthly_fee"),
    ("max_monthly_fee")]

def listKeys : List String :=
  [("housing_forms"), ("housing_form"), ("tenure"), ("municipalities"),
    ("regions"), ("counties"), ("types"), ("districts")]

/-- Does the entry `k ↦ v` contribute at least one clause when
`_build_filters` runs?  Range keys need a non-None value, list keys a
non-empty list, `bbox` a list of exactly four components; unknown keys never
contribute. -/
def wellFormedFor (k : String) (v : FilterValue) : Bool :=
  if rangeKeys.contains k then decide (v ≠ FilterValue.null)
  else if listKeys.contains k then
    match v with
    | .list xs => !xs.isEmpty
    | _ => false
  else if k = ("bbox") then
    match v with
    | .list xs => xs.length == 4
    | _ => false
  else false

/-- Drop every entry of a filter dict that contributes no clause. -/
def cleanse (spec : FilterSpec) : FilterSpec :=
  spec.filter fun p => wellFormedFor p.1 p.2

theorem pyLookup_eq_none {spec : FilterSpec} {k : String}
    (h : k ∉ spec.map Prod.fst) : pyLookup spec k = none := by
  induction spec with
  | nil => rfl
  | cons p t ih =>
    obtain ⟨k', v'⟩ := p
    simp only [List.map_cons, List.mem_cons, not_or] at h
    have hne : (k == k') = false := beq_eq_false_iff_ne.mpr h.1
    simp only [pyLookup, List.lookup, hne]
    exact ih h.2

/-- Looking a key up in the cleansed dict: the entry survives exactly when it
was well-formed (keys are distinct, as in a Python dict). -/
theorem pyLookup_cleanse (spec : FilterSpec) (hnd : (spec.map Prod.fst).Nodup)
    (k : String) :
    pyLookup (cleanse spec) k =
      (pyLookup spec k).bind fun v =>
        if wellFormedFor k v then some v else none := by
  induction spec with
  | nil => rfl
  | cons p t ih =>
    obtain ⟨k', v'⟩ := p
    simp only [List.map_cons, List.nodup_cons] at hnd
    by_cases hkk : k = k'
    · subst hkk
      by_cases hw : wellFormedFor k v' = true
      · have hstep : cleanse ((k, v') :: t) = (k, v') :: cleanse t := by
          simp [cleanse, List.filter_cons, hw]
        rw [hstep]
        simp [pyLookup, List.lookup, hw]
      · have hnotin : k ∉ (cleanse t).map Prod.fst := by
          intro hm
          obtain ⟨p, hp, hpk⟩ := List.mem_map.mp hm
          exact hnd.1 (List.mem_map.mpr ⟨p, (List.mem_filter.mp hp).1, hpk⟩)
        have hwf : wellFormedFor k v' = false := by
          simpa using hw
        have hstep : cleanse ((k, v') :: t) = cleanse t := by
          simp [cleanse, List.filter_cons, hwf]
        rw [hstep, pyLookup_eq_none hnotin]
        simp [pyLookup, List.lookup, hwf]
    · have hne : (k == k') = false := beq_eq_false_iff_ne.mpr hkk
      by_cases hw : wellFormedFor k' v' = true
      · have hstep : cleanse ((k', v') :: t) = (k', v') :: cleanse t := by
          simp [cleanse, List.filter_cons, hw]
        rw [hstep]
        simp only [pyLookup, List.lookup, hne]
        exact ih hnd.2
      · have hwf : wellFormedFor k' v' = false := by simpa using hw
        have hstep : cleanse ((k', v') :: t) = cleanse t := by
          simp [cleanse, List.filter_cons, hwf]
        rw [hstep]
        simp only [pyLookup, List.lookup, hne]
        exact ih hnd.2

theorem geEmit_wf_range {k : String} (hk : rangeKeys.contains k = true)
    (o : Option FilterValue) (e : NumExpr) :
    geEmit (o.bind fun v => if wellFormedFor k v then some v else none) e
      = geEmit o e := by
  cases o with
  | none => rfl
  | some v =>
    have hk2 : k ∈ rangeKeys := by simpa using hk
    have hw : wellFormedFor k v = decide (v ≠ FilterValue.null) := by
      simp [wellFormedFor, hk2]
    by_cases hv : v = FilterValue.null
    · subst hv; simp [geEmit, hw]
    · simp [geEmit, hw, hv]

theorem leEmit_wf_range {k : String} (hk : rangeKeys.contains k = true)
    (o : Option FilterValue) (e : NumExpr) :
    leEmit (o.bind fun v => if wellFormedFor k v then some v else none) e
      = leEmit o e := by
  cases o with
  | none => rfl
  | some v =>
    have hk2 : k ∈ rangeKeys := by simpa using hk
    have hw : wellFormedFor k v = decide (v ≠ FilterValue.null) := by
      simp [wellFormedFor, hk2]
    by_cases hv : v = FilterValue.null
    · subst hv; simp [leEmit, hw]
    · simp [leEmit, hw, hv]

theorem listEmit_wf {k : String} (hk1 : rangeKeys.contains k = false)
    (hk2 : listKeys.contains k = true) (o : Option FilterValue) (col : StrCol) :
    listEmit (o.bind fun v => if wellFormedFor k v then some v else none) col
      = listEmit o col := by
  cases o with
  | none => rfl
  | some v =>
    have hka : k ∉ rangeKeys := by simpa using hk1
    have hkb : k ∈ listKeys := by simpa using hk2
    have hw : wellFormedFor k v
        = match v with | .list xs => !xs.isEmpty | _ => false := by
      simp [wellFormedFor, hka, hkb]
    cases v with
    | list xs =>
      cases hxs : xs.isEmpty
      · simp [listEmit, hw, hxs]
      · simp [listEmit, hw, hxs]
    | null => simp [listEmit, hw]
    | num q => simp [listEmit, hw]
    | str s => simp [listEmit, hw]

theorem districtsEmit_wf (o : Option FilterValue) :
    districtsEmit (o.bind fun v =>
      if wellFormedFor ("districts") v then some v else none)
      = districtsEmit o := by
  cases o with
  | none => rfl
  | some v =>
    have h1 : ("districts") ∉ rangeKeys := by decide
    have h2 : ("districts") ∈ listKeys := by decide
    have hw : wellFormedFor ("districts") v
        = match v with | .list xs => !xs.isEmpty | _ => false := by
      simp [wellFormedFor, h1, h2]
    cases v with
    | list xs =>
      cases hxs : xs.isEmpty
      · simp [districtsEmit, hw, hxs]
      · simp [districtsEmit, hw, hxs]
    | null => simp [districtsEmit, hw]
    | num q => simp [districtsEmit, hw]
    | str s => simp [districtsEmit, hw]

theorem bboxEmit_wf (o : Option FilterValue) :
    bboxEmit (o.bind fun v =>
      if wellFormedFor ("bbox") v then some v else none)
      = bboxEmit o := by
  cases o with
  | none => rfl
  | some v =>
    have h1 : ("bbox") ∉ rangeKeys := by decide
    have h2 : ("bbox") ∉ listKeys := by decide
    have hw : wellFormedFor ("bbox") v
        = match v with | .list xs => xs.length == 4 | _ => false := by
      simp [wellFormedFor, h1, h2]
    cases v with
    | list xs =>
      rcases xs with _ | ⟨a, _ | ⟨b, _ | ⟨c, _ | ⟨d, _ | ⟨e, rest⟩⟩⟩⟩⟩ <;>
        simp [bboxEmit, hw]
    | null => simp [bboxEmit, hw]
    | num q => simp [bboxEmit, hw]
    | str s => simp [bboxEmit, hw]

/-- Cleansing a (duplicate-free) filter dict does not change the compiled
clause list: malformed entries were already contributing nothing. -/
theorem buildClauses_cleanse (spec : FilterSpec)
    (hnd : (spec.map Prod.fst).Nodup) :
    buildClauses (cleanse spec) = buildClauses spec := by
  unfold buildClauses rangeClauses monthlyFeeClauses listFilterClause
    districtsClause bboxClauses
  simp only [pyLookup_cleanse spec hnd]
  rw [geEmit_wf_range (k := ("min_price")) (by decide),
    leEmit_wf_range (k := ("max_price")) (by decide),
    geEmit_wf_range (k := ("min_rooms")) (by decide),
    leEmit_wf_range (k := ("max_rooms")) (by decide),
    geEmit_wf_range (k := ("min_area")) (by decide),
    leEmit_wf_range (k := ("max_area")) (by decide),
    geEmit_wf_range (k := ("min_year")) (by decide),
    leEmit_wf_range (k := ("max_year")) (by decide),
    geEmit_wf_range (k := ("min_monthly_fee")) (by decide),
    leEmit_wf_range (k := ("max_monthly_fee")) (by decide),
    listEmit_wf (k := ("housing_forms")) (by decide) (by decide),
    listEmit_wf (k := ("housing_form")) (by decide) (by decide),
    listEmit_wf (k := ("tenure")) (by decide) (by decide),
    listEmit_wf (k := ("municipalities")) (by decide) (by decide),
    listEmit_wf (k := ("regions")) (by decide) (by decide),
    listEmit_wf (k := ("counties")) (by decide) (by decide),
    listEmit_wf (k := ("types")) (by decide) (by decide),
    districtsEmit_wf, bboxEmit_wf]

/-- `build_filters` through the clause list only. -/
theorem build_filters_eq_ite (spec : FilterSpec) :
    build_filters spec =
      (if (buildClauses spec).isEmpty then (("" : String), ([] : List FilterValue))
       else (("WHERE ") ++ joinSep (" AND ") ((buildClauses spec).map renderClause),
         (buildClauses spec).flatMap clauseParams)) := by
  unfold build_filters
  by_cases hs : spec = ([] : List (String × FilterValue))
  · subst hs; rfl
  · rw [if_neg hs]


/-- C7 counterexample: a non-numeric range bound is NOT dropped.  The spec
requires the offending clause of `{min_price: "abc"}` to be dropped, which
would leave this single-key FilterSpec with no clauses and no parameters
(`("", [])`); instead `_build_filters` emits the range clause and binds the
string as its parameter. -/
theorem C7_counterexample :
    build_filters [(("min_price"), FilterValue.str ("abc"))] =
      (("WHERE COALESCE(price, asked_price) >= %s"), [FilterValue.str ("abc")]) ∧
    build_filters [(("min_price"), FilterValue.str ("abc"))] ≠
      ((("" : String)), ([] : List FilterValue)) := by
  have h1 : build_filters [(("min_price"), FilterValue.str ("abc"))] =
      (("WHERE COALESCE(price, asked_price) >= %s"), [FilterValue.str ("abc")]) := by
    with_unfolding_all rfl
  refine ⟨h1, ?_⟩
  rw [h1]
  decide

/-- C7 amended: for a filter dict with distinct keys, compilation is
unchanged by dropping the entries that contribute no clause — wrong-arity
bounding boxes, unknown keys, None range bounds and empty or non-list values
for list keys.  (Non-numeric range bounds are NOT dropped: any present,
non-None bound is compiled, as `C7_counterexample` shows.)  Compilation of the
remaining keys proceeds normally and never fails. -/
theorem C7_amended_drop_malformed (spec : FilterSpec)
    (hnd : (spec.map Prod.fst).Nodup) :
    build_filters (cleanse spec) = build_filters spec := by
  rw [build_filters_eq_ite, build_filters_eq_ite, buildClauses_cleanse spec hnd]

def specC7w : FilterSpec :=
  [(("min_price"), FilterValue.num 100),
    (("bbox"), FilterValue.list [Scalar.num 1]),
    (("frobnicate"), FilterValue.str ("x"))]

theorem C7_witness :
    build_filters (cleanse specC7w) = build_filters specC7w :=
  C7_amended_drop_malformed specC7w (by decide)

theorem shape_null_iff {v w : FilterValue} (h : shape v = shape w) :
    v = FilterValue.null ↔ w = FilterValue.null := by
  cases v <;> cases w <;> simp_all [shape]

theorem geEmit_render_congr {o o' : Option FilterValue}
    (h : o.map shape = o'.map shape) (e : NumExpr) :
    (geEmit o e).map renderClause = (geEmit o' e).map renderClause := by
  cases o with
  | none =>
    cases o' with
    | none => rfl
    | some w => simp at h
  | some v =>
    cases o' with
    | none => simp at h
    | some w =>
      replace h : shape v = shape w := by simpa using h
      by_cases hv : v = FilterValue.null
      · have hw : w = FilterValue.null := (shape_null_iff h).mp hv
        subst hv; subst hw; rfl
      · have hw : w ≠ FilterValue.null := fun hww => hv ((shape_null_iff h).mpr hww)
        simp [geEmit, hv, hw, renderClause]

theorem leEmit_render_congr {o o' : Option FilterValue}
    (h : o.map shape = o'.map shape) (e : NumExpr) :
    (leEmit o e).map renderClause = (leEmit o' e).map renderClause := by
  cases o with
  | none =>
    cases o' with
    | none => rfl
    | some w => simp at h
  | some v =>
    cases o' with
    | none => simp at h
    | some w =>
      replace h : shape v = shape w := by simpa using h
      by_cases hv : v = FilterValue.null
      · have hw : w = FilterValue.null := (shape_null_iff h).mp hv
        subst hv; subst hw; rfl
      · have hw : w ≠ FilterValue.null := fun hww => hv ((shape_null_iff h).mpr hww)
        simp [leEmit, hv, hw, renderClause]

theorem listEmit_render_congr {o o' : Option FilterValue}
    (h : o.map shape = o'.map shape) (col : StrCol) :
    (listEmit o col).map renderClause = (listEmit o' col).map renderClause := by
  cases o with
  | none =>
    cases o' with
    | none => rfl
    | some w => simp at h
  | some v =>
    cases o' with
    | none => simp at h
    | some w =>
      replace h : shape v = shape w := by simpa using h
      cases v with
      | list xs =>
        cases w with
        | list ys =>
          have hlen : xs.length = ys.length := by simpa [shape] using h
          have hemp : xs.isEmpty = ys.isEmpty := by
            cases xs <;> cases ys <;> simp_all
          cases he : ys.isEmpty <;> simp [listEmit, hemp, he, renderClause]
        | null => simp [shape] at h
        | num q => simp [shape] at h
        | str s => simp [shape] at h
      | null => cases w <;> simp_all [shape, listEmit]
      | num q => cases w <;> simp_all [shape, listEmit]
      | str s => cases w <;> simp_all [shape, listEmit]

theorem districtsEmit_render_congr {o o' : Option FilterValue}
    (h : o.map shape = o'.map shape) :
    (districtsEmit o).map renderClause = (districtsEmit o').map renderClause := by
  cases o with
  | none =>
    cases o' with
    | none => rfl
    | some w => simp at h
  | some v =>
    cases o' with
    | none => simp at h
    | some w =>
      replace h : shape v = shape w := by simpa using h
      cases v with
      | list xs =>
        cases w with
        | list ys =>
          have hlen : xs.length = ys.length := by simpa [shape] using h
          have hemp : xs.isEmpty = ys.isEmpty := by
            cases xs <;> cases ys <;> simp_all
          cases he : ys.isEmpty <;> simp [districtsEmit, hemp, he, renderClause]
        | null => simp [shape] at h
        | num q => simp [shape] at h
        | str s => simp [shape] at h
      | null => cases w <;> simp_all [shape, districtsEmit]
      | num q => cases w <;> simp_all [shape, districtsEmit]
      | str s => cases w <;> simp_all [shape, districtsEmit]

theorem bboxEmit_render_congr {o o' : Option FilterValue}
    (h : o.map shape = o'.map shape) :
    (bboxEmit o).map renderClause = (bboxEmit o').map renderClause := by
  cases o with
  | none =>
    cases o' with
    | none => rfl
    | some w => simp at h
  | some v =>
    cases o' with
    | none => simp at h
    | some w =>
      replace h : shape v = shape w := by simpa using h
      cases v with
      | list xs =>
        cases w with
        | list ys =>
          have hlen : xs.length = ys.length := by simpa [shape] using h
          rcases xs with _ | ⟨a1, _ | ⟨a2, _ | ⟨a3, _ | ⟨a4, _ | ⟨a5, r1⟩⟩⟩⟩⟩ <;>
            rcases ys with _ | ⟨b1, _ | ⟨b2, _ | ⟨b3, _ | ⟨b4, _ | ⟨b5, r2⟩⟩⟩⟩⟩ <;>
            simp_all [bboxEmit, renderClause]
        | null => simp [shape] at h
        | num q => simp [shape] at h
        | str s => simp [shape] at h
      | null => cases w <;> simp_all [shape, bboxEmit]
      | num q => cases w <;> simp_all [shape, bboxEmit]
      | str s => cases w <;> simp_all [shape, bboxEmit]

/-- Two filter dicts with the same keys and the same value shapes compile to
clause lists with identical rendered text. -/
theorem buildClauses_render_congr {f g : FilterSpec}
    (h : ∀ k, (pyLookup f k).map shape = (pyLookup g k).map shape) :
    (buildClauses f).map renderClause = (buildClauses g).map renderClause := by
  unfold buildClauses rangeClauses monthlyFeeClauses listFilterClause
    districtsClause bboxClauses
  simp only [List.map_append]
  rw [geEmit_render_congr (h (("min_price"))),
    leEmit_render_congr (h (("max_price"))),
    geEmit_render_congr (h (("min_rooms"))),
    leEmit_render_congr (h (("max_rooms"))),
    geEmit_render_congr (h (("min_area"))),
    leEmit_render_congr (h (("max_area"))),
    geEmit_render_congr (h (("min_year"))),
    leEmit_render_congr (h (("max_year"))),
    geEmit_render_congr (h (("min_monthly_fee"))),
    leEmit_render_congr (h (("max_monthly_fee"))),
    listEmit_render_congr (h (("housing_forms"))),
    listEmit_render_congr (h (("housing_form"))),
    listEmit_render_congr (h (("tenure"))),
    listEmit_render_congr (h (("municipalities"))),
    listEmit_render_congr (h (("regions"))),
    listEmit_render_congr (h (("counties"))),
    listEmit_render_congr (h (("types"))),
    districtsEmit_render_congr (h (("districts"))),
    bboxEmit_render_congr (h (("bbox")))]

/-- C4: FilterSpecs presenting the same keys with the same value shapes
compile to identical expression text — the literal values reach only the
bound-parameter list, never the generated SQL. -/
theorem C4_expression_text_stable (f g : FilterSpec)
    (h : ∀ k, (pyLookup f k).map shape = (pyLookup g k).map shape) :
    (build_filters f).1 = (build_filters g).1 ∧
    (buildClauses f).map renderClause = (buildClauses g).map renderClause := by
  have hr := buildClauses_render_congr h
  refine ⟨?_, hr⟩
  rw [build_filters_eq_ite, build_filters_eq_ite]
  have hemp : (buildClauses f).isEmpty = (buildClauses g).isEmpty := by
    have hlen : (buildClauses f).length = (buildClauses g).length := by
      simpa using congrArg List.length hr
    cases hf : buildClauses f <;> cases hg : buildClauses g <;> simp_all
  cases he : (buildClauses g).isEmpty
  · rw [hemp, he]
    simp only [Bool.false_eq_true, if_false]
    rw [hr]
  · rw [hemp, he]
    simp

def specC4f : FilterSpec :=
  [(("min_price"), FilterValue.num 2000000),
    (("municipalities"), FilterValue.list [Scalar.str ("Stockholm")])]

def specC4g : FilterSpec :=
  [(("min_price"), FilterValue.num 7),
    (("municipalities"), FilterValue.list [Scalar.str ("x) OR 1=1 --")])]

set_option maxHeartbeats 2000000 in
theorem C4_witness : (build_filters specC4f).1 = (build_filters specC4g).1 :=
  (C4_expression_text_stable specC4f specC4g (by
    intro k
    by_cases h1 : k = ("min_price")
    · subst h1; simp [specC4f, specC4g, pyLookup, List.lookup, shape]
    · by_cases h2 : k = ("municipalities")
      · subst h2; simp [specC4f, specC4g, pyLookup, List.lookup, shape]
      · have b1 : (k == ("min_price")) = false := beq_eq_false_iff_ne.mpr h1
        have b2 : (k == ("municipalities")) = false := beq_eq_false_iff_ne.mpr h2
        simp [specC4f, specC4g, pyLookup, List.lookup, b1, b2])).1

/-- C8 counterexample: requesting the unknown tag field `"bogus"` produces a
report whose `tag_prevalence` is empty — the field is silently skipped
(`if not select_sql: continue`), not recorded as a per-field error marker as
the claim requires. -/
theorem C8_counterexample :
    (search_estimate [] [] [("bogus")] [("price")] 8 15 [blankRow 1]).map
      (fun r => r.tag_prevalence) = Except.ok ([] : List (String × TagStats)) := by
  with_unfolding_all decide

theorem mapM_ok_mem {ε α β : Type} (f : α → Except ε β) :
    ∀ (l : List α) (out : List β), l.mapM f = Except.ok out →
      ∀ a ∈ l, ∃ b ∈ out, f a = Except.ok b := by
  intro l
  induction l with
  | nil =>
    intro out h a ha
    cases ha
  | cons x t ih =>
    intro out h a ha
    rw [List.mapM_cons] at h
    cases hfx : f x with
    | error e =>
      rw [hfx] at h
      simp only [Bind.bind, Except.bind] at h
      exact Except.noConfusion h
    | ok b =>
      rw [hfx] at h
      cases hmt : t.mapM f with
      | error e =>
        rw [hmt] at h
        simp only [Bind.bind, Except.bind] at h
        exact Except.noConfusion h
      | ok bs =>
        rw [hmt] at h
        simp only [Bind.bind, Except.bind, pure, Except.pure] at h
        have hout : out = b :: bs := by
          injection h with h'
          exact h'.symm
        subst hout
        rcases List.mem_cons.mp ha with rfl | hat
        · exact ⟨b, List.mem_cons_self _ _, hfx⟩
        · obtain ⟨b', hb', hfb'⟩ := ih bs hmt a hat
          exact ⟨b', List.mem_cons_of_mem _ hb', hfb'⟩

/-- An unknown numeric field always yields the error-marker entry. -/
theorem numericEntryFor_none {w : String} {db : List Row} {p : Row → Bool}
    {bins : Nat} {f : String} (hm : numeric_map f = none) :
    numericEntryFor w db p bins f
      = Except.ok (f, NumericEntry.error ("unsupported_field")) := by
  unfold numericEntryFor
  rw [hm]

/-- A successful numeric-loop entry carries its own field name, and is the
error marker exactly for unknown fields. -/
theorem numericEntryFor_shape {w : String} {db : List Row} {p : Row → Bool}
    {bins : Nat} {f : String} {out : String × NumericEntry}
    (h : numericEntryFor w db p bins f = Except.ok out) :
    out.1 = f ∧
      ((numeric_map f = none ∧ out.2 = NumericEntry.error ("unsupported_field"))
        ∨ ∃ e s, numeric_map f = some e ∧ out.2 = NumericEntry.stats s) := by
  unfold numericEntryFor at h
  cases hm : numeric_map f with
  | none =>
    rw [hm] at h
    injection h with h'
    subst h'
    exact ⟨rfl, Or.inl ⟨rfl, rfl⟩⟩
  | some e =>
    rw [hm] at h
    dsimp only at h
    split at h
    · split at h
      · split at h
        · injection h with h'
          subst h'
          exact ⟨rfl, Or.inr ⟨e, _, rfl, rfl⟩⟩
        · exact absurd h (by simp)
      · injection h with h'
        subst h'
        exact ⟨rfl, Or.inr ⟨e, _, rfl, rfl⟩⟩
    · injection h with h'
      subst h'
      exact ⟨rfl, Or.inr ⟨e, _, rfl, rfl⟩⟩

/-- C8 amended: an unknown *numeric* field is recorded as the per-field error
marker `{"error": "unsupported_field"}` and every known numeric field still
receives a stats entry; an unknown *tag* field, however, is silently omitted
from `tag_prevalence` (no marker of any kind), while every known tag field is
still populated.  The call is never aborted by an unknown field of either
kind. -/
theorem C8_amended_markers (hard soft : FilterSpec) (tf nf : List String)
    (bins tl : Nat) (db : List Row) (rep : Report)
    (h : search_estimate hard soft tf nf bins tl db = Except.ok rep) :
    (∀ f ∈ (if nf.isEmpty then defaultNumericFields else nf),
        numeric_map f = none →
          (f, NumericEntry.error ("unsupported_field")) ∈ rep.numeric_distributions) ∧
    (∀ f ∈ (if nf.isEmpty then defaultNumericFields else nf),
        ∀ e, numeric_map f = some e →
          ∃ s, (f, NumericEntry.stats s) ∈ rep.numeric_distributions) ∧
    (∀ f ∈ (if tf.isEmpty then defaultTagFields else tf),
        tag_query f = none → ∀ st, (f, st) ∉ rep.tag_prevalence) ∧
    (∀ f ∈ (if tf.isEmpty then defaultTagFields else tf),
        ∀ q, tag_query f = some q →
          (f, tagFieldStats q db (specPred hard) (max 5 (min tl 50)) db.length
            (db.countP (specPred hard))) ∈ rep.tag_prevalence) := by
  have hnum := search_estimate_ok_numeric h
  obtain ⟨-, -, htag⟩ := search_estimate_ok_fields h
  refine ⟨?_, ?_, ?_, ?_⟩
  · intro f hf hm
    obtain ⟨b, hb, hfb⟩ := mapM_ok_mem _ _ _ hnum f hf
    rw [numericEntryFor_none hm] at hfb
    injection hfb with h'
    subst h'
    exact hb
  · intro f hf e he
    obtain ⟨b, hb, hfb⟩ := mapM_ok_mem _ _ _ hnum f hf
    obtain ⟨hb1, hcase⟩ := numericEntryFor_shape hfb
    rcases hcase with ⟨hm, -⟩ | ⟨e', s, hm, hb2⟩
    · rw [hm] at he; cases he
    · refine ⟨s, ?_⟩
      have : b = (f, NumericEntry.stats s) := by
        obtain ⟨b1, b2⟩ := b
        simp only at hb1 hb2
        rw [hb1, hb2]
      rw [← this]
      exact hb
  · intro f hf hq st hmem
    rw [htag] at hmem
    obtain ⟨a, ha, hga⟩ := List.mem_filterMap.mp hmem
    cases hqa : tag_query a with
    | none => rw [hqa] at hga; cases hga
    | some q =>
      rw [hqa] at hga
      injection hga with h'
      have : a = f := congrArg Prod.fst h'
      rw [this] at hqa
      rw [hqa] at hq
      cases hq
  · intro f hf q hq
    rw [htag]
    refine List.mem_filterMap.mpr ⟨f, hf, ?_⟩
    rw [hq]
    rfl

def estC8 : Except SqlError Report :=
  search_estimate [] [] [("bogus"), ("municipality_name")]
    [("bogus2"), ("rooms")] 8 15 dbW

def repC8 : Report := estC8.toOption.getD emptyReport

theorem C8_witness :
    ((("bogus2"), NumericEntry.error ("unsupported_field"))
        ∈ repC8.numeric_distributions) ∧
    ∀ st, ((("bogus")), st) ∉ repC8.tag_prevalence := by
  have h := C8_amended_markers [] [] [("bogus"), ("municipality_name")]
    [("bogus2"), ("rooms")] 8 15 dbW repC8 (by with_unfolding_all decide)
  exact ⟨h.1 ("bogus2") (by decide) rfl, fun st => h.2.2.1 ("bogus") (by decide) rfl st⟩

theorem mem_addShare {pop : Nat} {l : List (String × Nat)} {obs : TagObservation}
    (h : obs ∈ addShare pop l) :
    ∃ p ∈ l, obs.tag = p.1 ∧ obs.count = p.2 ∧
      obs.share = (if pop ≠ 0 then (p.2 : ℚ) / (pop : ℚ) else 0) := by
  obtain ⟨p, hp, he⟩ := List.mem_map.mp h
  exact ⟨p, hp, by rw [← he], by rw [← he], by rw [← he]⟩

theorem mem_orderLimit {l : List (String × Nat)} {k : Nat} {p : String × Nat}
    (h : p ∈ orderLimit l k) : p ∈ l := by
  have h1 : p ∈ l.insertionSort (fun a b => b.2 ≤ a.2) :=
    List.take_subset _ _ h
  exact (List.perm_insertionSort _ l).mem_iff.mp h1

theorem mem_groupedCounts {rows : List (Int × String)} {x : String × Nat}
    (h : x ∈ groupedCounts rows) :
    x.1 ∈ rows.map Prod.snd ∧
      x.2 = ((rows.filterMap fun p =>
        if p.2 = x.1 then some p.1 else none).dedup).length := by
  obtain ⟨t, ht, he⟩ := List.mem_map.mp h
  have hmem : t ∈ rows.map Prod.snd := List.mem_dedup.mp ht
  constructor
  · rw [← he]; exact hmem
  · rw [← he]

theorem validTagRows_tag_ne {q : TagKind} {db : List Row} :
    ∀ p ∈ validTagRows q db, p.2 ≠ ("") := by
  intro p hp
  obtain ⟨r, hr, hpr⟩ := List.mem_flatMap.mp hp
  obtain ⟨t?, ht?, hg⟩ := List.mem_filterMap.mp hpr
  cases t? with
  | none => cases hg
  | some t =>
    simp only [Option.bind] at hg
    by_cases ht : t = ("")
    · rw [if_pos ht] at hg; cases hg
    · rw [if_neg ht] at hg
      injection hg with h'
      intro hcon
      exact ht (by rw [← h'] at hcon; exact hcon)

/-- Every observation either prevalence list produces has a non-empty tag. -/
theorem tagFieldStats_tag_ne (q : TagKind) (db : List Row) (pred : Row → Bool)
    (limit total filtered : Nat) :
    (∀ obs ∈ (tagFieldStats q db pred limit total filtered).overall,
      obs.tag ≠ ("")) ∧
    (∀ obs ∈ (tagFieldStats q db pred limit total filtered).filtered,
      obs.tag ≠ ("")) := by
  constructor
  · intro obs hobs
    obtain ⟨p, hp, htag, -, -⟩ := mem_addShare hobs
    obtain ⟨hfst, -⟩ := mem_groupedCounts (mem_orderLimit hp)
    obtain ⟨pr, hpr, hprs⟩ := List.mem_map.mp hfst
    rw [htag, ← hprs]
    exact validTagRows_tag_ne pr hpr
  · intro obs hobs
    obtain ⟨p, hp, htag, -, -⟩ := mem_addShare hobs
    obtain ⟨hfst, -⟩ := mem_groupedCounts (mem_orderLimit hp)
    obtain ⟨pr, hpr, hprs⟩ := List.mem_map.mp hfst
    rw [htag, ← hprs]
    exact validTagRows_tag_ne pr (List.mem_of_mem_filter hpr)

/-- C10: every tag observation in `tag_prevalence` (either population) has a
non-null, non-empty `tag_value`: the derived `tags` relation is filtered by
`WHERE tag IS NOT NULL AND tag <> ''` before grouping, so null or empty
extracted tags never reach the prevalence counts.  (Non-nullness is
structural: a `TagObservation.tag` is a `String`, produced only from tags that
survived that filter.) -/
theorem C10_prevalence_tags_nonempty (hard soft : FilterSpec)
    (tf nf : List String) (bins tl : Nat) (db : List Row) (rep : Report)
    (h : search_estimate hard soft tf nf bins tl db = Except.ok rep) :
    ∀ fname st, (fname, st) ∈ rep.tag_prevalence →
      (∀ obs ∈ st.overall, obs.tag ≠ ("")) ∧
      (∀ obs ∈ st.filtered, obs.tag ≠ ("")) := by
  obtain ⟨-, -, htag⟩ := search_estimate_ok_fields h
  intro fname st hmem
  rw [htag] at hmem
  obtain ⟨a, ha, hga⟩ := List.mem_filterMap.mp hmem
  cases hqa : tag_query a with
  | none => rw [hqa] at hga; cases hga
  | some q =>
    rw [hqa] at hga
    injection hga with h'
    have hst : st = tagFieldStats q db (specPred hard) (max 5 (min tl 50))
        db.length (db.countP (specPred hard)) := congrArg Prod.snd h' |>.symm
    rw [hst]
    exact tagFieldStats_tag_ne q db (specPred hard) _ _ _

def stC10 : TagStats :=
  ((repW.tag_prevalence.lookup ("municipality_name")).getD ⟨[], []⟩)

def obsC10 : TagObservation := stC10.overall.getD 0 ⟨("x"), 0, 0⟩

theorem C10_witness : obsC10.tag ≠ ("") :=
  (C10_prevalence_tags_nonempty [] [] [] [] 25 1 dbW repW
      (by with_unfolding_all decide) ("municipality_name") stC10
      (by with_unfolding_all decide)).1 obsC10 (by with_unfolding_all decide)

theorem dedup_length_le_of_subset {l m : List Int} (h : ∀ a ∈ l, a ∈ m) :
    l.dedup.length ≤ m.length := by
  have h1 : l.toFinset.card = l.dedup.length := List.card_toFinset l
  have h2 : l.toFinset ⊆ m.toFinset := by
    intro a ha
    exact List.mem_toFinset.mpr (h a (List.mem_toFinset.mp ha))
  calc l.dedup.length = l.toFinset.card := h1.symm
    _ ≤ m.toFinset.card := Finset.card_le_card h2
    _ ≤ m.length := m.toFinset_card_le

/-- A grouped distinct-id count never exceeds the size of any id list that
contains every id of the grouped rows. -/
theorem groupedCounts_count_le {rows : List (Int × String)} (ids : List Int)
    (hsub : ∀ p ∈ rows, p.1 ∈ ids) :
    ∀ x ∈ groupedCounts rows, x.2 ≤ ids.length := by
  intro x hx
  obtain ⟨-, h2⟩ := mem_groupedCounts hx
  rw [h2]
  apply dedup_length_le_of_subset
  intro a ha
  obtain ⟨p, hp, hpa⟩ := List.mem_filterMap.mp ha
  by_cases hps : p.2 = x.1
  · rw [if_pos hps] at hpa
    injection hpa with h'
    rw [← h']
    exact hsub p hp
  · rw [if_neg hps] at hpa
    cases hpa

theorem addShare_bounds (pop : Nat) (l : List (String × Nat))
    (hle : ∀ x ∈ l, x.2 ≤ pop) :
    ∀ obs ∈ addShare pop l,
      obs.share = (if pop ≠ 0 then (obs.count : ℚ) / (pop : ℚ) else 0) ∧
      0 ≤ obs.share ∧ obs.share ≤ 1 := by
  intro obs hobs
  obtain ⟨p, hp, htag, hcount, hshare⟩ := mem_addShare hobs
  refine ⟨by rw [hshare, hcount], ?_, ?_⟩
  · rw [hshare]
    by_cases hpop : pop = 0
    · simp [hpop]
    · rw [if_pos hpop]
      positivity
  · rw [hshare]
    by_cases hpop : pop = 0
    · simp [hpop]
    · rw [if_pos hpop]
      have hpos : (0 : ℚ) < (pop : ℚ) :=
        Nat.cast_pos.mpr (Nat.pos_of_ne_zero hpop)
      rw [div_le_one hpos]
      exact_mod_cast hle p hp

theorem validTagRows_fst_mem {q : TagKind} {db : List Row} :
    ∀ p ∈ validTagRows q db, p.1 ∈ db.map Row.hemnet_id := by
  intro p hp
  obtain ⟨r, hr, hpr⟩ := List.mem_flatMap.mp hp
  obtain ⟨t?, ht?, hg⟩ := List.mem_filterMap.mp hpr
  cases t? with
  | none => cases hg
  | some t =>
    simp only [Option.bind] at hg
    by_cases ht : t = ("")
    · rw [if_pos ht] at hg; cases hg
    · rw [if_neg ht] at hg
      injection hg with h'
      rw [← h']
      exact List.mem_map.mpr ⟨r, hr, rfl⟩

/-- C5: every returned tag observation's share is its distinct-item count
divided by the respective population size (0 for an empty population, never a
division by zero), and lies in `[0, 1]`. -/
theorem C5_share_bounds (hard soft : FilterSpec) (tf nf : List String)
    (bins tl : Nat) (db : List Row) (rep : Report)
    (h : search_estimate hard soft tf nf bins tl db = Except.ok rep) :
    ∀ fname st, (fname, st) ∈ rep.tag_prevalence →
      (∀ obs ∈ st.overall,
        obs.share = (if rep.total_count ≠ 0
          then (obs.count : ℚ) / (rep.total_count : ℚ) else 0) ∧
        0 ≤ obs.share ∧ obs.share ≤ 1) ∧
      (∀ obs ∈ st.filtered,
        obs.share = (if rep.filtered_count ≠ 0
          then (obs.count : ℚ) / (rep.filtered_count : ℚ) else 0) ∧
        0 ≤ obs.share ∧ obs.share ≤ 1) := by
  obtain ⟨ht, hf, htag⟩ := search_estimate_ok_fields h
  intro fname st hmem
  rw [htag] at hmem
  obtain ⟨a, ha, hga⟩ := List.mem_filterMap.mp hmem
  cases hqa : tag_query a with
  | none => rw [hqa] at hga; cases hga
  | some q =>
    rw [hqa] at hga
    injection hga with h'
    have hst : st = tagFieldStats q db (specPred hard) (max 5 (min tl 50))
        db.length (db.countP (specPred hard)) := congrArg Prod.snd h' |>.symm
    subst hst
    constructor
    · intro obs hobs
      have hle : ∀ x ∈ orderLimit (groupedCounts (validTagRows q db))
          (max 5 (min tl 50)), x.2 ≤ db.length := by
        intro x hx
        have := groupedCounts_count_le (db.map Row.hemnet_id)
          validTagRows_fst_mem x (mem_orderLimit hx)
        simpa using this
      have := addShare_bounds db.length _ hle obs hobs
      rw [ht]
      exact this
    · intro obs hobs
      have hcnt : db.countP (specPred hard)
          = ((db.filter (specPred hard)).map Row.hemnet_id).length := by
        rw [List.length_map, ← List.countP_eq_length_filter]
      have hle : ∀ x ∈ orderLimit (groupedCounts
          ((validTagRows q db).filter fun p =>
            ((db.filter (specPred hard)).map Row.hemnet_id).contains p.1))
          (max 5 (min tl 50)), x.2 ≤ db.countP (specPred hard) := by
        intro x hx
        rw [hcnt]
        refine groupedCounts_count_le _ ?_ x (mem_orderLimit hx)
        intro p hp
        have hc := (List.mem_filter.mp hp).2
        exact List.elem_iff.mp hc
      have := addShare_bounds (db.countP (specPred hard)) _ hle obs hobs
      rw [hf]
      exact this

def stC5 : TagStats :=
  ((repW.tag_prevalence.lookup ("municipality_name")).getD ⟨[], []⟩)

def obsC5 : TagObservation := stC5.overall.getD 0 ⟨("x"), 0, 0⟩

theorem C5_witness :
    obsC5.share = (if repW.total_count ≠ 0
      then (obsC5.count : ℚ) / (repW.total_count : ℚ) else 0) ∧
    0 ≤ obsC5.share ∧ obsC5.share ≤ 1 :=
  (C5_share_bounds [] [] [] [] 25 1 dbW repW (by with_unfolding_all decide)
      ("municipality_name") stC5 (by with_unfolding_all decide)).1 obsC5
    (by with_unfolding_all decide)

theorem length_filterMap_ids_eq_countP (rows : List (Int × String)) (t : String) :
    (rows.filterMap fun p => if p.2 = t then some p.1 else none).length
      = rows.countP fun p => p.2 == t := by
  induction rows with
  | nil => rfl
  | cons p r ih =>
    rw [List.filterMap_cons, List.countP_cons]
    by_cases hp : p.2 = t
    · rw [if_pos hp]
      simp [hp, ih]
    · rw [if_neg hp]
      have : (p.2 == t) = false := beq_eq_false_iff_ne.mpr hp
      simp [this, ih]

/-- The grouped distinct-id counts of a tag field sum to at most the number
of `(id, tag)` rows: each group's distinct count is at most the group's row
count, and the groups partition the rows. -/
theorem sum_groupedCounts_le (rows : List (Int × String)) :
    ((groupedCounts rows).map Prod.snd).sum ≤ rows.length := by
  unfold groupedCounts
  rw [List.map_map]
  have hterm : ∀ t ∈ (rows.map Prod.snd).dedup,
      (Prod.snd ∘ fun t => (t,
        ((rows.filterMap fun p => if p.2 = t then some p.1 else none).dedup).length)) t
        ≤ (rows.map Prod.snd).count t := by
    intro t ht
    have h1 : ((rows.filterMap fun p =>
        if p.2 = t then some p.1 else none).dedup).length
        ≤ (rows.filterMap fun p => if p.2 = t then some p.1 else none).length :=
      (List.dedup_sublist _).length_le
    have h2 : (rows.map Prod.snd).count t = rows.countP fun p => p.2 == t := by
      rw [List.count, List.countP_map]
      rfl
    calc (Prod.snd ∘ fun t => (t,
          ((rows.filterMap fun p => if p.2 = t then some p.1 else none).dedup).length)) t
        = ((rows.filterMap fun p => if p.2 = t then some p.1 else none).dedup).length := rfl
      _ ≤ (rows.filterMap fun p => if p.2 = t then some p.1 else none).length := h1
      _ = rows.countP (fun p => p.2 == t) := length_filterMap_ids_eq_countP rows t
      _ = (rows.map Prod.snd).count t := h2.symm
  calc ((rows.map Prod.snd).dedup.map _).sum
      ≤ ((rows.map Prod.snd).dedup.map fun t => (rows.map Prod.snd).count t).sum :=
        List.sum_le_sum hterm
    _ = (rows.map Prod.snd).length := List.sum_map_count_dedup_eq_length _
    _ = rows.length := List.length_map _ _

theorem sum_take_le_nat (l : List Nat) (k : Nat) : (l.take k).sum ≤ l.sum := by
  conv_rhs => rw [← List.take_append_drop k l]
  rw [List.sum_append]
  exact Nat.le_add_right _ _

theorem sum_orderLimit_le (l : List (String × Nat)) (k : Nat) :
    ((orderLimit l k).map Prod.snd).sum ≤ (l.map Prod.snd).sum := by
  unfold orderLimit
  have hperm : List.Perm ((l.insertionSort fun a b => b.2 ≤ a.2).map Prod.snd)
      (l.map Prod.snd) := (List.perm_insertionSort _ l).map Prod.snd
  calc (((l.insertionSort fun a b => b.2 ≤ a.2).take k).map Prod.snd).sum
      = (((l.insertionSort fun a b => b.2 ≤ a.2).map Prod.snd).take k).sum := by
        rw [List.map_take]
    _ ≤ ((l.insertionSort fun a b => b.2 ≤ a.2).map Prod.snd).sum :=
        sum_take_le_nat _ k
    _ = (l.map Prod.snd).sum := hperm.sum_eq

theorem countP_le_countP_of_imp {α : Type} (p q : α → Bool) (l : List α)
    (h : ∀ a ∈ l, p a = true → q a = true) : l.countP p ≤ l.countP q := by
  induction l with
  | nil => exact Nat.le_refl 0
  | cons a t ih =>
    rw [List.countP_cons, List.countP_cons]
    have ht := ih fun x hx => h x (List.mem_cons_of_mem a hx)
    by_cases hpa : p a = true
    · rw [hpa, h a (List.mem_cons_self a t) hpa]
      omega
    · have : p a = false := by simpa using hpa
      rw [this]
      have : (if (false : Bool) = true then 1 else 0) = 0 := rfl
      omega

theorem rowValidTags_length_le {q : TagKind} (hq : q.isScalar = true) (r : Row) :
    (rowValidTags q r).length ≤ 1 := by
  cases q <;> simp_all [TagKind.isScalar] <;>
    exact Nat.le_trans (List.length_filterMap_le _ _) (by simp [rowTags])

/-- For a single-valued tag field the valid tag rows arise one-per-row. -/
theorem flatMap_singleton_eq_filterMap {α β : Type} (f : α → List β)
    (hf : ∀ a, (f a).length ≤ 1) (l : List α) :
    l.flatMap f = l.filterMap fun a => (f a).head? := by
  induction l with
  | nil => rfl
  | cons a t ih =>
    rw [List.flatMap_cons, List.filterMap_cons]
    cases hfa : f a with
    | nil => simpa using ih
    | cons b bs =>
      have hbs : bs = [] := by
        have := hf a
        rw [hfa] at this
        simpa using this
      subst hbs
      simpa using ih

theorem filter_filterMap_length {α β : Type} (g : α → Option β) (Q : β → Bool)
    (l : List α) :
    ((l.filterMap g).filter Q).length
      = l.countP fun a => match g a with | some x => Q x | none => false := by
  induction l with
  | nil => rfl
  | cons a t ih =>
    rw [List.filterMap_cons, List.countP_cons]
    cases hga : g a with
    | none => simp [ih]
    | some x =>
      rw [List.filter_cons]
      cases hQ : Q x <;> simp [hQ, ih]

/-- With distinct `hemnet_id`s, a row whose id appears among the filtered ids
satisfies the filter itself. -/
theorem pred_of_id_mem_filtered {db : List Row}
    (hnd : (db.map Row.hemnet_id).Nodup) (pred : Row → Bool) {r : Row}
    (hr : r ∈ db)
    (hid : r.hemnet_id ∈ (db.filter pred).map Row.hemnet_id) :
    pred r = true := by
  induction db with
  | nil => cases hr
  | cons a t ih =>
    simp only [List.map_cons, List.nodup_cons] at hnd
    rcases List.mem_cons.mp hr with rfl | hrt
    · by_cases hpa : pred r = true
      · exact hpa
      · exfalso
        rw [List.filter_cons] at hid
        have hfa : pred r = false := by simpa using hpa
        rw [hfa] at hid
        simp only [Bool.false_eq_true, if_false] at hid
        obtain ⟨r', hr', hre⟩ := List.mem_map.mp hid
        exact hnd.1 (hre ▸ List.mem_map.mpr ⟨r', List.mem_of_mem_filter hr', rfl⟩)
    · rw [List.filter_cons] at hid
      by_cases hpa : pred a = true
      · rw [hpa] at hid
        simp only [if_true] at hid
        rcases List.mem_cons.mp hid with heq | hid'
        · exfalso
          exact hnd.1 (heq ▸ List.mem_map.mpr ⟨r, hrt, rfl⟩)
        · exact ih hnd.2 hrt hid'
      · have hfa : pred a = false := by simpa using hpa
        rw [hfa] at hid
        simp only [Bool.false_eq_true, if_false] at hid
        exact ih hnd.2 hrt hid

theorem rowValidTags_fst {q : TagKind} {r : Row} :
    ∀ x ∈ rowValidTags q r, x.1 = r.hemnet_id := by
  intro x hx
  obtain ⟨t?, -, hg⟩ := List.mem_filterMap.mp hx
  cases t? with
  | none => cases hg
  | some t =>
    simp only [Option.bind] at hg
    by_cases ht : t = ("")
    · rw [if_pos ht] at hg; cases hg
    · rw [if_neg ht] at hg
      injection hg with h'
      rw [← h']

/-- For a single-valued tag field over a table with distinct ids, the valid
tag rows that survive the join against the filtered ids number at most the
filtered rows. -/
theorem filtered_tagRows_le {q : TagKind} (hq : q.isScalar = true)
    (db : List Row) (hnd : (db.map Row.hemnet_id).Nodup) (pred : Row → Bool) :
    ((validTagRows q db).filter fun p =>
      ((db.filter pred).map Row.hemnet_id).contains p.1).length
      ≤ db.countP pred := by
  rw [show validTagRows q db = db.flatMap (rowValidTags q) from rfl,
    flatMap_singleton_eq_filterMap _ (rowValidTags_length_le hq),
    filter_filterMap_length]
  apply countP_le_countP_of_imp
  intro r hr hmatch
  cases hhead : (rowValidTags q r).head? with
  | none => rw [hhead] at hmatch; cases hmatch
  | some x =>
    rw [hhead] at hmatch
    have hx : x ∈ rowValidTags q r := by
      cases hrv : rowValidTags q r with
      | nil => rw [hrv] at hhead; cases hhead
      | cons y ys =>
        rw [hrv] at hhead
        injection hhead with h'
        rw [← h']
        exact List.mem_cons_self y ys
    have hfst : x.1 = r.hemnet_id := rowValidTags_fst x hx
    have hidmem : r.hemnet_id ∈ (db.filter pred).map Row.hemnet_id := by
      rw [← hfst]
      exact List.elem_iff.mp hmatch
    exact pred_of_id_mem_filtered hnd pred hr hidmem

theorem validTagRows_length_le_scalar {q : TagKind} (hq : q.isScalar = true)
    (db : List Row) : (validTagRows q db).length ≤ db.length := by
  induction db with
  | nil => exact Nat.le_refl 0
  | cons r t ih =>
    rw [show validTagRows q (r :: t)
      = rowValidTags q r ++ validTagRows q t from List.flatMap_cons ..]
    rw [List.length_append]
    have h1 := rowValidTags_length_le hq r
    simp only [List.length_cons]
    omega

theorem sum_div_counts (l : List (String × Nat)) (pop : ℚ) :
    (l.map fun p => (p.2 : ℚ) / pop).sum = (((l.map Prod.snd).sum : Nat) : ℚ) / pop := by
  induction l with
  | nil => simp
  | cons p t ih =>
    rw [List.map_cons, List.sum_cons, ih, List.map_cons, List.sum_cons]
    push_cast
    rw [div_add_div_same]

/-- When the rows of one population are at most its size, the shares handed
out (after grouping, ordering and limiting) sum to at most 1. -/
theorem sum_shares_le_one (rows : List (Int × String)) (pop k : Nat)
    (hlen : rows.length ≤ pop) :
    ((addShare pop (orderLimit (groupedCounts rows) k)).map
      TagObservation.share).sum ≤ 1 := by
  by_cases hpop : pop = 0
  · subst hpop
    have hz : ∀ x ∈ (addShare 0 (orderLimit (groupedCounts rows) k)).map
        TagObservation.share, x = 0 := by
      intro x hx
      obtain ⟨obs, hobs, hxe⟩ := List.mem_map.mp hx
      obtain ⟨p, -, -, -, hshare⟩ := mem_addShare hobs
      rw [← hxe, hshare]
      simp
    rw [List.sum_eq_zero hz]
    exact zero_le_one
  · have hmap : (addShare pop (orderLimit (groupedCounts rows) k)).map
        TagObservation.share
        = (orderLimit (groupedCounts rows) k).map fun p => (p.2 : ℚ) / (pop : ℚ) := by
      unfold addShare
      rw [List.map_map]
      apply List.map_congr_left
      intro p hp
      simp [hpop]
    rw [hmap, sum_div_counts]
    have hc : ((orderLimit (groupedCounts rows) k).map Prod.snd).sum ≤ pop :=
      le_trans (sum_orderLimit_le _ k) (le_trans (sum_groupedCounts_le rows) hlen)
    have hpos : (0 : ℚ) < (pop : ℚ) := Nat.cast_pos.mpr (Nat.pos_of_ne_zero hpop)
    rw [div_le_one hpos]
    exact_mod_cast hc

/-- C6 counterexample input: one row carrying two districts. -/
def rowC6 : Row := { blankRow 1 with districts := some [some ("A"), some ("B")] }

def repC6 : Report :=
  (search_estimate [] [] [("districts")] [("rooms")] 8 15 [rowC6]).toOption.getD
    emptyReport

def stC6 : TagStats := (repC6.tag_prevalence.lookup ("districts")).getD ⟨[], []⟩

/-- C6 counterexample: for the array-valued tag field `districts`, one row
with two districts makes both tags have share 1, so the shares over the
returned observations sum to 2 > 1 — the claimed invariant fails for
multi-valued tag fields. -/
theorem C6_counterexample :
    ((("districts")), stC6) ∈ repC6.tag_prevalence ∧
    (stC6.overall.map TagObservation.share).sum = 2 ∧
    ¬ (stC6.overall.map TagObservation.share).sum ≤ 1 := by
  refine ⟨?_, ?_, ?_⟩ <;> with_unfolding_all decide

/-- C6 amended: for the six single-valued tag fields (`housing_form`,
`tenure`, `municipality_name`, `region_name`, `county_name`, `type`), and
with `hemnet_id` unique across rows (it is the table's key), the shares of
the returned observations sum to at most 1 in both populations.  For the
array-valued fields (`districts`, `labels`, `relevant_amenities`) a single
item can carry several tags and the sum can exceed 1, as
`C6_counterexample` shows. -/
theorem C6_amended_scalar_sum_le_one (hard soft : FilterSpec)
    (tf nf : List String) (bins tl : Nat) (db : List Row) (rep : Report)
    (hnd : (db.map Row.hemnet_id).Nodup)
    (h : search_estimate hard soft tf nf bins tl db = Except.ok rep) :
    ∀ fname st, (fname, st) ∈ rep.tag_prevalence →
      ∀ q, tag_query fname = some q → q.isScalar = true →
        (st.overall.map TagObservation.share).sum ≤ 1 ∧
        (st.filtered.map TagObservation.share).sum ≤ 1 := by
  obtain ⟨-, -, htag⟩ := search_estimate_ok_fields h
  intro fname st hmem q hq hscalar
  rw [htag] at hmem
  obtain ⟨a, ha, hga⟩ := List.mem_filterMap.mp hmem
  cases hqa : tag_query a with
  | none => rw [hqa] at hga; cases hga
  | some q' =>
    rw [hqa] at hga
    injection hga with h'
    have haf : a = fname := congrArg Prod.fst h'
    have hst : st = tagFieldStats q' db (specPred hard) (max 5 (min tl 50))
        db.length (db.countP (specPred hard)) := congrArg Prod.snd h' |>.symm
    have hqq : q' = q := by
      rw [haf] at hqa
      rw [hqa] at hq
      injection hq
    subst hqq
    subst hst
    constructor
    · apply sum_shares_le_one
      exact validTagRows_length_le_scalar hscalar db
    · apply sum_shares_le_one
      rw [show db.countP (specPred hard)
        = ((db.filter (specPred hard)).map Row.hemnet_id).length from by
          rw [List.length_map, ← List.countP_eq_length_filter]]
      have := filtered_tagRows_le hscalar db hnd (specPred hard)
      rw [show ((db.filter (specPred hard)).map Row.hemnet_id).length
        = db.countP (specPred hard) from by
          rw [List.length_map, ← List.countP_eq_length_filter]]
      exact this

def stC6w : TagStats :=
  ((repW.tag_prevalence.lookup ("municipality_name")).getD ⟨[], []⟩)

theorem C6_witness :
    (stC6w.overall.map TagObservation.share).sum ≤ 1 ∧
    (stC6w.filtered.map TagObservation.share).sum ≤ 1 :=
  C6_amended_scalar_sum_le_one [] [] [] [] 25 1 dbW repW (by decide)
    (by with_unfolding_all decide) ("municipality_name") stC6w
    (by with_unfolding_all decide) TagKind.municipality_name rfl rfl

def dbC3 : List Row :=
  [{ blankRow 1 with rooms := some 1 }, { blankRow 2 with rooms := some 2 }]

/-- C3 (code bug): with any non-empty hard filter, a numeric field whose
filtered population has `count > 0` and `min < max` reaches the histogram
query, whose `data` CTE is rendered as
`FROM hemnet_items {where_sql} WHERE {expr} IS NOT NULL`.  The interpolated
`where_sql` already starts with `WHERE`, so the statement carries two WHERE
clauses for one FROM (second conjunct: the keyword appears twice) and the SQL
parser rejects it: the call fails instead of returning the histogram the
claim describes.  (With an empty filter the histogram is produced normally.) -/
theorem C3_histogram_double_where :
    search_estimate [(("min_rooms"), FilterValue.num 1)] [] [("housing_form")]
      [("rooms")] 8 15 dbC3 = Except.error SqlError.invalidHistogramSql ∧
    whereOccurrences (histDataSelect
      (build_filters [(("min_rooms"), FilterValue.num 1)]).1
      (renderNumExpr NumExpr.rooms)) = 2 := by
  constructor <;> with_unfolding_all decide

/-- C9 (code bug): the combined hard+soft count is assembled with
`where_sql.replace("WHERE ", "")`, and `str.replace` also deletes the `WHERE`
inside the districts EXISTS subquery (second conjunct: the stripped fragment
reads `... AS d d = ANY(%s))`, which no longer parses).  With a districts
hard filter and any non-empty soft preference the call therefore fails
instead of reporting the count matching both predicates. -/
theorem C9_soft_replace_bug :
    search_estimate [(("districts"), FilterValue.list [Scalar.str ("Soder")])]
      [(("min_price"), FilterValue.num 1)] [("housing_form")] [("rooms")] 8 15
      [blankRow 1] = Except.error SqlError.invalidSoftSql ∧
    stripWHERE (build_filters
        [(("districts"), FilterValue.list [Scalar.str ("Soder")])]).1
      = ("EXISTS (SELECT 1 FROM jsonb_array_elements_text(COALESCE(districts, \x27[]\x27::jsonb)) AS d d = ANY(%s))") := by
  constructor <;> with_unfolding_all decide
